import Mathlib

/-
Verification of the SocialMediaAggressor aggregation core.

The Go source is shallowly embedded:
* `FeedResult` mirrors the Go struct; `PublishedTime` (a Go `time.Time`)
  becomes a `Nat`, with `0` standing for the Go zero time produced when
  `time.Parse` fails ("unknown" timestamp).  `a.After(b)` is `b < a`.
  The derived display string `Published` (pure formatting) is omitted.
* Both the `sync.Map` caches and the per-request `results` map are
  association lists; `Store` prepends and `Load` takes the first match,
  which gives overwrite semantics.
* External effects (HTTP fetches, RSS parsing, URL escaping, time
  parsing) are parameters of the embedded functions: each adapter is a
  function from the keyword to the sequence it would produce, and a
  failing adapter is one that produces the empty sequence, exactly as
  the Go fetchers return `nil` on every error path.
-/

namespace SocialMediaAggregator

/-- Embeds the Go struct `FeedResult` (src/main.go).  `publishedTime = 0`
is the zero `time.Time`, i.e. an unknown timestamp. -/
structure FeedResult where
  title : String
  link : String
  publishedTime : Nat
  description : String
  source : String
  thumbnail : String
deriving DecidableEq

/-- Association-list representation shared by the `sync.Map` cache and the
per-request `results` map of `fetchAllFeeds`. -/
abbrev ResultsMap := List (String × List FeedResult)

/-- `sync.Map.Load` / map lookup: first binding wins. -/
def mapLoad (m : ResultsMap) (k : String) : Option (List FeedResult) :=
  (m.find? (fun p => p.1 == k)).map Prod.snd

/-- `sync.Map.Store` / map write: prepend, so a later write shadows an
earlier one under `mapLoad`. -/
def mapStore (m : ResultsMap) (k : String) (v : List FeedResult) : ResultsMap :=
  (k, v) :: m

/-- Result of one call of a cached fetcher: the returned sequence, the
cache afterwards, and how many times the underlying adapter was invoked
(instrumentation used to state the cache-hit property). -/
structure CacheFetch where
  results : List FeedResult
  cache : ResultsMap
  adapterCalls : Nat
deriving DecidableEq

/-- Embeds `fetchNewsFeedsWithCache` (src/main.go lines 199-207): look up
`"news:" + keyword`; on a hit return the cached slice, on a miss invoke
`fetchNewsFeeds` and store whatever it returned. -/
def fetchNewsFeedsWithCache (fetchNews : String → List FeedResult)
    (c : ResultsMap) (keyword : String) : CacheFetch :=
  match mapLoad c ("news:" ++ keyword) with
  | some cached => ⟨cached, c, 0⟩
  | none =>
    let results := fetchNews keyword
    ⟨results, mapStore c ("news:" ++ keyword) results, 1⟩

/-- Embeds `fetchYouTubeFeedsWithCache` (src/main.go lines 209-217). -/
def fetchYouTubeFeedsWithCache (fetchYouTube : String → List FeedResult)
    (c : ResultsMap) (keyword : String) : CacheFetch :=
  match mapLoad c ("youtube:" ++ keyword) with
  | some cached => ⟨cached, c, 0⟩
  | none =>
    let results := fetchYouTube keyword
    ⟨results, mapStore c ("youtube:" ++ keyword) results, 1⟩

theorem mapLoad_mapStore_self (m : ResultsMap) (k : String) (v : List FeedResult) :
    mapLoad (mapStore m k v) k = some v := by
  simp [mapLoad, mapStore, List.find?]

theorem mapLoad_mapStore_ne (m : ResultsMap) {k k' : String} (v : List FeedResult)
    (h : k' ≠ k) : mapLoad (mapStore m k v) k' = mapLoad m k' := by
  have hk : (k == k') = false := beq_eq_false_iff_ne.mpr (Ne.symm h)
  simp [mapLoad, mapStore, List.find?, hk]

/-- Claim C5: with a fixed deterministic adapter and an initial cache miss,
two consecutive calls of each cached fetcher return identical sequences and
invoke the underlying adapter exactly once in total: the second call is a
pure cache hit. -/
theorem cachedFetch_secondCallIsHit (f g : String → List FeedResult)
    (c : ResultsMap) (kw : String)
    (hn : mapLoad c ("news:" ++ kw) = none)
    (hy : mapLoad c ("youtube:" ++ kw) = none) :
    ((fetchNewsFeedsWithCache f (fetchNewsFeedsWithCache f c kw).cache kw).results
        = (fetchNewsFeedsWithCache f c kw).results ∧
      (fetchNewsFeedsWithCache f c kw).adapterCalls
        + (fetchNewsFeedsWithCache f (fetchNewsFeedsWithCache f c kw).cache kw).adapterCalls = 1) ∧
    ((fetchYouTubeFeedsWithCache g (fetchYouTubeFeedsWithCache g c kw).cache kw).results
        = (fetchYouTubeFeedsWithCache g c kw).results ∧
      (fetchYouTubeFeedsWithCache g c kw).adapterCalls
        + (fetchYouTubeFeedsWithCache g (fetchYouTubeFeedsWithCache g c kw).cache kw).adapterCalls = 1) := by
  constructor
  · simp [fetchNewsFeedsWithCache, hn, mapLoad_mapStore_self]
  · simp [fetchYouTubeFeedsWithCache, hy, mapLoad_mapStore_self]

theorem cachedFetch_secondCallIsHit_example :
    mapLoad [] ("news:" ++ "go") = none ∧ mapLoad [] ("youtube:" ++ "go") = none ∧
    (((fetchNewsFeedsWithCache (fun _ => [])
          (fetchNewsFeedsWithCache (fun _ => []) [] "go").cache "go").results
        = (fetchNewsFeedsWithCache (fun _ => []) [] "go").results ∧
      (fetchNewsFeedsWithCache (fun _ => []) [] "go").adapterCalls
        + (fetchNewsFeedsWithCache (fun _ => [])
            (fetchNewsFeedsWithCache (fun _ => []) [] "go").cache "go").adapterCalls = 1) ∧
     ((fetchYouTubeFeedsWithCache (fun _ => [])
          (fetchYouTubeFeedsWithCache (fun _ => []) [] "go").cache "go").results
        = (fetchYouTubeFeedsWithCache (fun _ => []) [] "go").results ∧
      (fetchYouTubeFeedsWithCache (fun _ => []) [] "go").adapterCalls
        + (fetchYouTubeFeedsWithCache (fun _ => [])
            (fetchYouTubeFeedsWithCache (fun _ => []) [] "go").cache "go").adapterCalls = 1)) :=
  ⟨by decide, by decide,
    cachedFetch_secondCallIsHit (fun _ => []) (fun _ => []) [] "go" (by decide) (by decide)⟩

/-- Claim C6: after a cache miss, the cache holds exactly the sequence
returned by the underlying fetch under the query key — also when that
sequence is empty, so a cached failure looks like a cached empty success —
and every later call with the same keyword returns the cached sequence
without invoking any adapter, even a different one. -/
theorem cachedFetch_missStoresFetchResult (f g : String → List FeedResult)
    (c : ResultsMap) (kw : String)
    (hn : mapLoad c ("news:" ++ kw) = none) :
    mapLoad (fetchNewsFeedsWithCache f c kw).cache ("news:" ++ kw) = some (f kw) ∧
    (fetchNewsFeedsWithCache g (fetchNewsFeedsWithCache f c kw).cache kw).results = f kw ∧
    (fetchNewsFeedsWithCache g (fetchNewsFeedsWithCache f c kw).cache kw).adapterCalls = 0 := by
  refine ⟨?_, ?_, ?_⟩ <;>
    simp [fetchNewsFeedsWithCache, hn, mapLoad_mapStore_self]

theorem cachedFetch_missStoresFetchResult_example :
    mapLoad [] ("news:" ++ "go") = none ∧
    (mapLoad (fetchNewsFeedsWithCache (fun _ => []) [] "go").cache ("news:" ++ "go")
        = some ((fun (_ : String) => ([] : List FeedResult)) "go") ∧
     (fetchNewsFeedsWithCache (fun _ => [⟨"a", "b", 3, "d", "e", "f"⟩])
        (fetchNewsFeedsWithCache (fun _ => []) [] "go").cache "go").results
        = (fun (_ : String) => ([] : List FeedResult)) "go" ∧
     (fetchNewsFeedsWithCache (fun _ => [⟨"a", "b", 3, "d", "e", "f"⟩])
        (fetchNewsFeedsWithCache (fun _ => []) [] "go").cache "go").adapterCalls = 0) :=
  ⟨by decide,
    cachedFetch_missStoresFetchResult (fun _ => []) (fun _ => [⟨"a", "b", 3, "d", "e", "f"⟩])
      [] "go" (by decide)⟩

/-- The six sources `fetchAllFeeds` (src/main.go lines 112-197) dispatches
to, one goroutine each. -/
inductive SourceName
  | newsAPI | rss | twitter | youtube | instagram | facebook
deriving DecidableEq

/-- The map key each goroutine writes its slice under. -/
def sourceKey : SourceName → String
  | .newsAPI => "NewsAPI"
  | .rss => "RSS"
  | .twitter => "Twitter"
  | .youtube => "YouTube"
  | .instagram => "Instagram"
  | .facebook => "Facebook"

/-- The sequences the six per-source fetch calls return for the request.
A source whose fetch failed returns the empty sequence, as every error
path of the Go fetchers returns `nil`. -/
structure AdapterResults where
  newsAPI : List FeedResult
  rss : List FeedResult
  twitter : List FeedResult
  youtube : List FeedResult
  instagram : List FeedResult
  facebook : List FeedResult
deriving DecidableEq

def sourceValue (a : AdapterResults) : SourceName → List FeedResult
  | .newsAPI => a.newsAPI
  | .rss => a.rss
  | .twitter => a.twitter
  | .youtube => a.youtube
  | .instagram => a.instagram
  | .facebook => a.facebook

/-- Degrades the adapter outputs on a failing subset of the sources: a
failing fetch returns `nil`, i.e. the empty sequence. -/
def degrade (failed : SourceName → Bool) (a : AdapterResults) : AdapterResults where
  newsAPI := if failed .newsAPI then [] else a.newsAPI
  rss := if failed .rss then [] else a.rss
  twitter := if failed .twitter then [] else a.twitter
  youtube := if failed .youtube then [] else a.youtube
  instagram := if failed .instagram then [] else a.instagram
  facebook := if failed .facebook then [] else a.facebook

def allSources : List SourceName :=
  [.newsAPI, .rss, .twitter, .youtube, .instagram, .facebook]

/-- Embeds `fetchAllFeeds` (src/main.go lines 112-197).  The six goroutines
write their slices into the shared `results` map under a mutex and
`wg.Wait` joins on all of them; the order of the writes is a scheduling
choice, so it is an explicit parameter `order`.  After the join the
combined `"News"` entry is appended: the concatenation of the `NewsAPI`
and `RSS` slices, with no sorting. -/
def fetchAllFeeds (order : List SourceName) (a : AdapterResults) : ResultsMap :=
  mapStore (order.foldl (fun m s => mapStore m (sourceKey s) (sourceValue a s)) [])
    "News" (a.newsAPI ++ a.rss)

theorem sourceKey_inj {s t : SourceName} (h : sourceKey s = sourceKey t) : s = t := by
  cases s <;> cases t <;> first | rfl | simp [sourceKey] at h

theorem sourceKey_ne_news (s : SourceName) : sourceKey s ≠ "News" := by
  cases s <;> simp [sourceKey]

theorem mapLoad_foldl_store_of_not_mem (a : AdapterResults) (s : SourceName) :
    ∀ (order : List SourceName) (m : ResultsMap), s ∉ order →
      mapLoad (order.foldl (fun m t => mapStore m (sourceKey t) (sourceValue a t)) m)
          (sourceKey s)
        = mapLoad m (sourceKey s) := by
  intro order
  induction order with
  | nil => intro m _; rfl
  | cons t rest ih =>
    intro m hmem
    have hst : s ≠ t := fun h => hmem (h ▸ List.mem_cons_self t rest)
    have hrest : s ∉ rest := fun h => hmem (List.mem_cons_of_mem t h)
    simp only [List.foldl_cons]
    rw [ih _ hrest, mapLoad_mapStore_ne _ _ (fun h => hst (sourceKey_inj h))]

theorem mapLoad_foldl_store_of_mem (a : AdapterResults) (s : SourceName) :
    ∀ (order : List SourceName) (m : ResultsMap), s ∈ order →
      mapLoad (order.foldl (fun m t => mapStore m (sourceKey t) (sourceValue a t)) m)
          (sourceKey s)
        = some (sourceValue a s) := by
  intro order
  induction order with
  | nil => intro m h; cases h
  | cons t rest ih =>
    intro m hmem
    simp only [List.foldl_cons]
    by_cases hrest : s ∈ rest
    · exact ih _ hrest
    · have hst : s = t := by
        rcases List.mem_cons.mp hmem with h | h
        · exact h
        · exact absurd h hrest
      subst hst
      rw [mapLoad_foldl_store_of_not_mem a s rest _ hrest, mapLoad_mapStore_self]

/-- Claim C1: whatever subset of the adapters fails (each failing fetch
returning the empty sequence) and whatever order the goroutines complete
in, `fetchAllFeeds` returns a map with an entry for each of the six
configured sources plus the combined `"News"` entry; each non-failing
source's entry is exactly what its adapter returned and each failing
source contributes the empty sequence. -/
theorem fetchAllFeeds_faultIsolation (a : AdapterResults) (failed : SourceName → Bool)
    (order : List SourceName) (horder : order.Perm allSources) :
    (∀ s : SourceName,
        mapLoad (fetchAllFeeds order (degrade failed a)) (sourceKey s)
          = some (if failed s then [] else sourceValue a s)) ∧
    mapLoad (fetchAllFeeds order (degrade failed a)) "News"
      = some ((if failed .newsAPI then [] else a.newsAPI)
          ++ (if failed .rss then [] else a.rss)) := by
  constructor
  · intro s
    have hmem : s ∈ order := horder.mem_iff.mpr (by cases s <;> simp [allSources])
    have hval : sourceValue (degrade failed a) s = if failed s then [] else sourceValue a s := by
      cases s <;> rfl
    rw [fetchAllFeeds, mapLoad_mapStore_ne _ _ (sourceKey_ne_news s),
      mapLoad_foldl_store_of_mem _ _ _ _ hmem, hval]
  · rw [fetchAllFeeds, mapLoad_mapStore_self]
    rfl

/-- A two-source adapter assignment with the RSS adapter marked failing,
used to exercise `fetchAllFeeds_faultIsolation` at a concrete input. -/
def faultExampleAdapters : AdapterResults :=
  ⟨[⟨"n", "l", 4, "d", "s", "t"⟩], [⟨"r", "l", 2, "d", "s", "t"⟩], [], [], [], []⟩

theorem fetchAllFeeds_faultIsolation_example :
    allSources.Perm allSources ∧
    mapLoad
        (fetchAllFeeds allSources
          (degrade (fun s => s == SourceName.rss) faultExampleAdapters))
        (sourceKey .rss)
      = some (if ((SourceName.rss == SourceName.rss : Bool)) then []
          else sourceValue faultExampleAdapters .rss) ∧
    mapLoad
        (fetchAllFeeds allSources
          (degrade (fun s => s == SourceName.rss) faultExampleAdapters))
        (sourceKey .newsAPI)
      = some (if ((SourceName.newsAPI == SourceName.rss : Bool)) then []
          else sourceValue faultExampleAdapters .newsAPI) ∧
    mapLoad
        (fetchAllFeeds allSources
          (degrade (fun s => s == SourceName.rss) faultExampleAdapters))
        "News"
      = some ((if ((SourceName.newsAPI == SourceName.rss : Bool)) then []
            else faultExampleAdapters.newsAPI)
          ++ (if ((SourceName.rss == SourceName.rss : Bool)) then []
            else faultExampleAdapters.rss)) :=
  ⟨List.Perm.refl _,
    (fetchAllFeeds_faultIsolation faultExampleAdapters
      (fun s => s == SourceName.rss) allSources (List.Perm.refl _)).1 .rss,
    (fetchAllFeeds_faultIsolation faultExampleAdapters
      (fun s => s == SourceName.rss) allSources (List.Perm.refl _)).1 .newsAPI,
    (fetchAllFeeds_faultIsolation faultExampleAdapters
      (fun s => s == SourceName.rss) allSources (List.Perm.refl _)).2⟩

/-- The comparison `sort.Slice` is given in the Go sources:
`results[i].PublishedTime.After(results[j].PublishedTime)` sorts most
recent first, so the sorted order is non-increasing `publishedTime`. -/
def recencyGE (a b : FeedResult) : Prop := b.publishedTime ≤ a.publishedTime

instance : DecidableRel recencyGE := fun a b =>
  inferInstanceAs (Decidable (b.publishedTime ≤ a.publishedTime))

instance : IsTotal FeedResult recencyGE :=
  ⟨fun a b => Nat.le_total b.publishedTime a.publishedTime⟩

instance : IsTrans FeedResult recencyGE :=
  ⟨fun _ _ _ hab hbc => Nat.le_trans hbc hab⟩

/-- Embeds the `sort.Slice(allResults, ...After(...))` call: a sort of the
slice under the recency comparator (the Go sort is unstable, so any
sorted permutation is a legal outcome; insertion sort picks one). -/
def sortByRecency (l : List FeedResult) : List FeedResult :=
  List.insertionSort recencyGE l

/-- Embeds `fetchCombinedNewsFeeds` (src/server/crawler_server.go lines
258-300): the two goroutines append the RSS and News-API slices into
`allResults` (the append order is a scheduling choice; the claims proved
about the output are order-invariant), the join sorts by recency and
truncates to the most recent 100. -/
def fetchCombinedNewsFeeds (rssResults newsAPIResults : List FeedResult) :
    List FeedResult :=
  if 100 < (sortByRecency (rssResults ++ newsAPIResults)).length then
    (sortByRecency (rssResults ++ newsAPIResults)).take 100
  else
    sortByRecency (rssResults ++ newsAPIResults)

theorem sorted_sortByRecency (l : List FeedResult) :
    List.Sorted recencyGE (sortByRecency l) :=
  List.sorted_insertionSort recencyGE l

theorem sorted_fetchCombinedNewsFeeds (rssResults newsAPIResults : List FeedResult) :
    List.Sorted recencyGE (fetchCombinedNewsFeeds rssResults newsAPIResults) := by
  unfold fetchCombinedNewsFeeds
  split
  · exact (sorted_sortByRecency _).take
  · exact sorted_sortByRecency _

/-- Claim C2, corrected part: the `fetchCombinedNewsFeeds` output is
sorted non-increasing by published-at, every item with an unknown (zero)
timestamp comes after all items with known timestamps — but the `"News"`
entry built by `fetchAllFeeds` is the plain concatenation of the
`NewsAPI` and `RSS` slices, with no sort applied. -/
theorem combinedNews_sorted_unknownLast (rssResults newsAPIResults : List FeedResult)
    (order : List SourceName) (a : AdapterResults) :
    List.Sorted recencyGE (fetchCombinedNewsFeeds rssResults newsAPIResults) ∧
    (fetchCombinedNewsFeeds rssResults newsAPIResults).Pairwise
      (fun x y => x.publishedTime = 0 → y.publishedTime = 0) ∧
    mapLoad (fetchAllFeeds order a) "News" = some (a.newsAPI ++ a.rss) := by
  refine ⟨sorted_fetchCombinedNewsFeeds _ _, ?_, ?_⟩
  · exact (sorted_fetchCombinedNewsFeeds rssResults newsAPIResults).imp
      (fun h hx => Nat.le_zero.mp (hx ▸ h))
  · rw [fetchAllFeeds, mapLoad_mapStore_self]

/-- A `NewsAPI` slice whose single item is older than the single `RSS`
item: the `"News"` entry of `fetchAllFeeds` is then ordered oldest first. -/
def mismatchedAdapters : AdapterResults :=
  ⟨[⟨"old", "l", 1, "d", "s", "t"⟩], [⟨"new", "l", 5, "d", "s", "t"⟩], [], [], [], []⟩

/-- Claim C2 fails as stated: the combined `"News"` sequence that
`fetchAllFeeds` hands back to the caller is not sorted non-increasing by
published-at — here it holds the timestamps `[1, 5]`. -/
theorem newsEntry_not_sorted :
    ((mapLoad (fetchAllFeeds allSources mismatchedAdapters) "News").getD []).map
        FeedResult.publishedTime = [1, 5] ∧
    ¬ List.Sorted recencyGE
        ((mapLoad (fetchAllFeeds allSources mismatchedAdapters) "News").getD []) := by
  constructor
  · rfl
  · intro h
    have hrel := List.rel_of_sorted_cons
      (show List.Sorted recencyGE
          (⟨"old", "l", 1, "d", "s", "t"⟩ :: [⟨"new", "l", 5, "d", "s", "t"⟩]) from h)
      _ (List.mem_singleton.mpr rfl)
    exact absurd hrel (by decide)

theorem combinedNews_sorted_unknownLast_example :
    List.Sorted recencyGE (fetchCombinedNewsFeeds [⟨"a", "l", 0, "d", "s", "t"⟩]
        [⟨"b", "l", 7, "d", "s", "t"⟩]) ∧
    (fetchCombinedNewsFeeds [⟨"a", "l", 0, "d", "s", "t"⟩]
        [⟨"b", "l", 7, "d", "s", "t"⟩]).Pairwise
      (fun x y => x.publishedTime = 0 → y.publishedTime = 0) ∧
    mapLoad (fetchAllFeeds allSources mismatchedAdapters) "News"
      = some (mismatchedAdapters.newsAPI ++ mismatchedAdapters.rss) :=
  combinedNews_sorted_unknownLast [⟨"a", "l", 0, "d", "s", "t"⟩]
    [⟨"b", "l", 7, "d", "s", "t"⟩] allSources mismatchedAdapters

/-- Claim C7: `fetchCombinedNewsFeeds` returns at most 100 items, and when
the concatenation holds more than 100 items the output is exactly the
first 100 of the recency-sorted concatenation, every returned item being
at least as recent as every item of the discarded tail. -/
theorem fetchCombinedNewsFeeds_truncation (rssResults newsAPIResults : List FeedResult) :
    (fetchCombinedNewsFeeds rssResults newsAPIResults).length ≤ 100 ∧
    (100 < (rssResults ++ newsAPIResults).length →
      fetchCombinedNewsFeeds rssResults newsAPIResults
          = (sortByRecency (rssResults ++ newsAPIResults)).take 100 ∧
        ∀ x ∈ fetchCombinedNewsFeeds rssResults newsAPIResults,
          ∀ y ∈ (sortByRecency (rssResults ++ newsAPIResults)).drop 100,
            recencyGE x y) := by
  have hlen : (sortByRecency (rssResults ++ newsAPIResults)).length
      = (rssResults ++ newsAPIResults).length :=
    (List.perm_insertionSort recencyGE _).length_eq
  constructor
  · unfold fetchCombinedNewsFeeds
    split
    · simp
    · omega
  · intro hgt
    have hcase : fetchCombinedNewsFeeds rssResults newsAPIResults
        = (sortByRecency (rssResults ++ newsAPIResults)).take 100 := by
      unfold fetchCombinedNewsFeeds
      rw [if_pos (by omega)]
    refine ⟨hcase, ?_⟩
    intro x hx y hy
    rw [hcase] at hx
    exact (sorted_sortByRecency _).rel_of_mem_take_of_mem_drop hx hy

/-- 101 items with pairwise distinct, decreasing timestamps. -/
def overflowInput : List FeedResult :=
  (List.range 101).map (fun i => ⟨"i", "l", 100 - i, "d", "s", "t"⟩)

theorem fetchCombinedNewsFeeds_truncation_example :
    100 < (overflowInput ++ ([] : List FeedResult)).length ∧
    fetchCombinedNewsFeeds overflowInput []
      = (sortByRecency (overflowInput ++ [])).take 100 ∧
    recencyGE (⟨"i", "l", 100, "d", "s", "t"⟩ : FeedResult)
      (⟨"i", "l", 0, "d", "s", "t"⟩ : FeedResult) :=
  ⟨by decide,
    ((fetchCombinedNewsFeeds_truncation overflowInput []).2 (by decide)).1,
    ((fetchCombinedNewsFeeds_truncation overflowInput []).2 (by decide)).2
      ⟨"i", "l", 100, "d", "s", "t"⟩ (by decide) ⟨"i", "l", 0, "d", "s", "t"⟩ (by decide)⟩

/-- `needle` matches at the head of `hay` (character-wise equality). -/
def leadingMatch : List Char → List Char → Bool
  | [], _ => true
  | _ :: _, [] => false
  | a :: as, b :: bs => a == b && leadingMatch as bs

/-- Embeds Go `strings.Contains(hay, needle)`: some tail of `hay` starts
with `needle`. -/
def containsSeq (needle : List Char) : List Char → Bool
  | [] => leadingMatch needle []
  | a :: t => leadingMatch needle (a :: t) || containsSeq needle t

def strContains (hay needle : String) : Bool :=
  containsSeq needle.data hay.data

/-- Embeds Go `strings.ToLower` (character-wise lowering; the Go function
lowercases each rune). -/
def toLowerStr (s : String) : String :=
  ⟨s.data.map Char.toLower⟩

/-- One item of a parsed RSS feed, as the gofeed parser delivers it. -/
structure RSSItem where
  title : String
  description : String
  published : String
  link : String
deriving DecidableEq

/-- A parsed RSS feed: its title and its items. -/
structure RSSFeed where
  title : String
  items : List RSSItem
deriving DecidableEq

/-- The external collaborators `fetchRSSFeeds` relies on: URL escaping of
the keyword, the network fetch + parse of a feed URL (`fp.ParseURL`,
`none` = error, the source is skipped), and RFC1123Z time parsing
(`none` = parse failure, which in Go leaves the zero time). -/
structure RSSEnv where
  queryEscape : String → String
  parseURL : String → Option RSSFeed
  parseTimeRFC1123Z : String → Option Nat

/-- The URL fetched for one configured source: a `%s` template is filled
with the escaped keyword, any other URL is used as-is (src/main.go lines
365-373). -/
def rssURL (env : RSSEnv) (source keyword : String) : String :=
  if strContains source "%s" then
    source.replace "%s" (env.queryEscape keyword)
  else
    source

/-- The keyword filter of `fetchRSSFeeds` (src/main.go lines 386-388):
keep an item if its lowercased title or lowercased description contains
the lowercased keyword. -/
def itemMatches (keyword : String) (item : RSSItem) : Bool :=
  strContains (toLowerStr item.title) (toLowerStr keyword)
    || strContains (toLowerStr item.description) (toLowerStr keyword)

/-- Conversion of a kept RSS item into a `FeedResult` (src/main.go lines
389-398): the published time is the parsed RFC1123Z time, or the zero
time when parsing failed. -/
def itemToFeedResult (env : RSSEnv) (feed : RSSFeed) (item : RSSItem) : FeedResult where
  title := item.title
  link := item.link
  publishedTime := (env.parseTimeRFC1123Z item.published).getD 0
  description := item.description
  source := feed.title
  thumbnail := "https://via.placeholder.com/150"

/-- Embeds `fetchRSSFeeds` (src/main.go lines 361-405): for each
configured source fetch and parse the (possibly templated) URL, skip it
on error, and keep the items whose title or description contains the
keyword case-insensitively. -/
def fetchRSSFeeds (env : RSSEnv) (sources : List String) (keyword : String) :
    List FeedResult :=
  (sources.map (fun source =>
    match env.parseURL (rssURL env source keyword) with
    | none => []
    | some feed =>
      (feed.items.filter (itemMatches keyword)).map (itemToFeedResult env feed))).flatten

/-- The `NEWS_SOURCES` list of src/main.go lines 39-47. -/
def NEWS_SOURCES : List String :=
  ["https://feeds.bbci.co.uk/news/rss.xml",
   "https://rss.nytimes.com/services/xml/rss/nyt/HomePage.xml",
   "https://feeds.skynews.com/feeds/rss/home.xml",
   "https://www.theguardian.com/world/rss",
   "https://www.aljazeera.com/xml/rss/all.xml",
   "https://www.npr.org/rss/rss.php?id=1001",
   "https://news.google.com/rss/search?q=%s&hl=en-US&gl=US&ceid=US:en"]

/-- Claim C8: every `FeedResult` that `fetchRSSFeeds` returns contains the
keyword as a case-insensitive substring of its title or description. -/
theorem fetchRSSFeeds_onlyMatching (env : RSSEnv) (sources : List String)
    (keyword : String) (r : FeedResult) (hr : r ∈ fetchRSSFeeds env sources keyword) :
    strContains (toLowerStr r.title) (toLowerStr keyword) = true
      ∨ strContains (toLowerStr r.description) (toLowerStr keyword) = true := by
  simp only [fetchRSSFeeds, List.mem_flatten, List.mem_map] at hr
  obtain ⟨_, ⟨source, _, rfl⟩, hmem⟩ := hr
  rcases hfetch : env.parseURL (rssURL env source keyword) with _ | feed
  · rw [hfetch] at hmem
    cases hmem
  · rw [hfetch] at hmem
    obtain ⟨item, hitem, rfl⟩ := List.mem_map.mp hmem
    have hmatch := (List.mem_filter.mp hitem).2
    simp only [itemMatches, Bool.or_eq_true] at hmatch
    rcases hmatch with h | h
    · exact Or.inl h
    · exact Or.inr h

/-- A fixed test environment whose single source parses into one feed of
two items, only one of which mentions the keyword. -/
def rssEnvExample : RSSEnv where
  queryEscape := fun s => s
  parseURL := fun _ =>
    some ⟨"Feed", [⟨"go news", "d1", "", "l1"⟩, ⟨"other", "d2", "", "l2"⟩]⟩
  parseTimeRFC1123Z := fun _ => none

theorem fetchRSSFeeds_onlyMatching_example :
    itemToFeedResult rssEnvExample ⟨"Feed", [⟨"go news", "d1", "", "l1"⟩, ⟨"other", "d2", "", "l2"⟩]⟩
        ⟨"go news", "d1", "", "l1"⟩ ∈ fetchRSSFeeds rssEnvExample ["src"] "go" ∧
    (strContains
        (toLowerStr (itemToFeedResult rssEnvExample
          ⟨"Feed", [⟨"go news", "d1", "", "l1"⟩, ⟨"other", "d2", "", "l2"⟩]⟩
          ⟨"go news", "d1", "", "l1"⟩).title) (toLowerStr "go") = true
      ∨ strContains
        (toLowerStr (itemToFeedResult rssEnvExample
          ⟨"Feed", [⟨"go news", "d1", "", "l1"⟩, ⟨"other", "d2", "", "l2"⟩]⟩
          ⟨"go news", "d1", "", "l1"⟩).description) (toLowerStr "go") = true) :=
  ⟨by decide,
    fetchRSSFeeds_onlyMatching rssEnvExample ["src"] "go" _ (by decide)⟩

/-- `fetchRSSFeeds` with the keyword filter dropped: every successfully
parsed item of every configured feed, in feed order. -/
def fetchRSSFeedsUnfiltered (env : RSSEnv) (sources : List String) : List FeedResult :=
  (sources.map (fun source =>
    match env.parseURL (rssURL env source "") with
    | none => []
    | some feed => feed.items.map (itemToFeedResult env feed))).flatten

/-- The combined news feed the crawler server builds for a keyword: the
RSS results and the News-API results, merged by `fetchCombinedNewsFeeds`
(src/server/crawler_server.go lines 258-300). -/
def serverCombinedNews (env : RSSEnv) (sources : List String)
    (newsAPIFetch : String → List FeedResult) (keyword : String) : List FeedResult :=
  fetchCombinedNewsFeeds (fetchRSSFeeds env sources keyword) (newsAPIFetch keyword)

/-- Embeds the server's keyword-less `fetchNewsFeedsWithCache`
(src/server/crawler_server.go lines 589-605): look up the fixed key
`"news"`; on a miss fetch `fetchCombinedNewsFeeds("")` — the empty
keyword — and cache it. -/
def serverFetchNewsFeedsWithCache (env : RSSEnv) (sources : List String)
    (newsAPIFetch : String → List FeedResult) (c : ResultsMap) :
    List FeedResult × ResultsMap :=
  match mapLoad c "news" with
  | some cached => (cached, c)
  | none =>
    let results := serverCombinedNews env sources newsAPIFetch ""
    (results, mapStore c "news" results)

theorem containsSeq_nil (l : List Char) : containsSeq [] l = true := by
  cases l <;> simp [containsSeq, leadingMatch]

theorem strContains_empty (s : String) : strContains s "" = true :=
  containsSeq_nil s.data

theorem itemMatches_empty (item : RSSItem) : itemMatches "" item = true := by
  simp [itemMatches, toLowerStr, strContains]
  exact Or.inl (containsSeq_nil _)

/-- Claim C10: with the empty keyword the filter accepts every item —
`fetchRSSFeeds("")` returns every successfully parsed item of every
configured feed — and on a cache miss the server's no-keyword news page
serves exactly the combined feed built from the empty keyword. -/
theorem fetchRSSFeeds_emptyKeyword_unfiltered (env : RSSEnv) (sources : List String)
    (newsAPIFetch : String → List FeedResult) (c : ResultsMap)
    (hmiss : mapLoad c "news" = none) :
    fetchRSSFeeds env sources "" = fetchRSSFeedsUnfiltered env sources ∧
    serverFetchNewsFeedsWithCache env sources newsAPIFetch c
      = (serverCombinedNews env sources newsAPIFetch "",
         mapStore c "news" (serverCombinedNews env sources newsAPIFetch "")) := by
  constructor
  · unfold fetchRSSFeeds fetchRSSFeedsUnfiltered
    refine congrArg List.flatten (List.map_congr_left ?_)
    intro source _
    rcases env.parseURL (rssURL env source "") with _ | feed
    · rfl
    · simp only []
      congr 1
      exact List.filter_eq_self.mpr (fun item _ => itemMatches_empty item)
  · simp [serverFetchNewsFeedsWithCache, hmiss]

theorem fetchRSSFeeds_emptyKeyword_unfiltered_example :
    mapLoad [] "news" = none ∧
    (fetchRSSFeeds rssEnvExample ["src"] "" = fetchRSSFeedsUnfiltered rssEnvExample ["src"] ∧
     serverFetchNewsFeedsWithCache rssEnvExample ["src"] (fun _ => []) []
       = (serverCombinedNews rssEnvExample ["src"] (fun _ => []) "",
          mapStore [] "news" (serverCombinedNews rssEnvExample ["src"] (fun _ => []) ""))) :=
  ⟨rfl, fetchRSSFeeds_emptyKeyword_unfiltered rssEnvExample ["src"] (fun _ => []) [] rfl⟩

/-- HTTP method of a request reaching `handleCrawl`. -/
inductive HttpMethod
  | options | post | get | other
deriving DecidableEq

/-- The decoded body of a crawl request: decoding either fails or yields
the keyword. -/
inductive CrawlBody
  | malformed
  | valid (keyword : String)
deriving DecidableEq

/-- What the crawl goroutine has done by the time the `select` resolves:
either it sent its results on the channel before the deadline, or the
45-second context expired first. -/
inductive CrawlOutcome
  | completed (results : List String)
  | deadlineExpired
deriving DecidableEq

/-- The response `handleCrawl` writes: a CORS-only reply to OPTIONS, an
`http.Error` with a status code, or a JSON `CrawlResponse`. -/
inductive CrawlHttpResponse
  | corsOnly
  | httpError (status : Nat) (msg : String)
  | ok (results : List String)
deriving DecidableEq

/-- Embeds `handleCrawl` (src/server/crawler_server.go lines 495-540).
The local `var results []string` is only assigned in the channel case of
the `select`; in the deadline case it is still nil, which is why the
`len(results) > 0` test is modelled on the empty list. -/
def handleCrawl (method : HttpMethod) (body : CrawlBody) (outcome : CrawlOutcome) :
    CrawlHttpResponse :=
  match method with
  | .options => .corsOnly
  | .post =>
    match body with
    | .malformed => .httpError 400 "Invalid request body"
    | .valid _ =>
      match outcome with
      | .completed results => .ok results
      | .deadlineExpired =>
        if ([] : List String).length > 0 then .ok []
        else .httpError 504 "Crawl function timed out"
  | _ => .httpError 405 "Invalid request method"

/-- Claim C3 fails on the code: a well-formed POST crawl request whose
crawl function misses the deadline is answered with the 504 error status,
never with a success carrying partial results — the partial-results
branch tests a variable that is still nil at that point and is dead
code. -/
theorem handleCrawl_timeout_is_error :
    handleCrawl .post (.valid "technology") .deadlineExpired
        = .httpError 504 "Crawl function timed out" ∧
    ∀ results : List String,
      handleCrawl .post (.valid "technology") .deadlineExpired ≠ .ok results := by
  exact ⟨rfl, fun results h => by simp [handleCrawl] at h⟩

/-- The Supervisor deadline of `handleCrawl`:
`context.WithTimeout(..., 45*time.Second)` in src/server/crawler_server.go
line 515 (the src/unnamed variant uses 30 seconds; only the constant
differs). -/
def SUPERVISOR_DEADLINE : Nat := 45

/-- Wall-clock wait of `handleCrawl`'s `select`: it resolves at the
earlier of the crawl goroutine's completion and the deadline timer. -/
def handleCrawlWaitTime (crawlDuration : Nat) : Nat :=
  min crawlDuration SUPERVISOR_DEADLINE

/-- Wall-clock wait of `fetchAllFeeds`: `wg.Wait()` joins on all six
goroutines with no timeout anywhere, so the caller waits for the slowest
adapter. -/
def fetchAllFeedsDuration (d : SourceName → Nat) : Nat :=
  (allSources.map d).foldr max 0

/-- Claim C4 fails on the code: no bound of the form deadline-plus-epsilon
caps `fetchAllFeeds` — for every candidate bound there is an adapter slow
enough to push the aggregation past it, because `fetchAllFeeds` has no
deadline at all. -/
theorem fetchAllFeeds_noDeadline :
    ¬ ∃ eps : Nat, ∀ d : SourceName → Nat,
        fetchAllFeedsDuration d ≤ SUPERVISOR_DEADLINE + eps := by
  rintro ⟨eps, h⟩
  have hd := h (fun _ => SUPERVISOR_DEADLINE + eps + 1)
  simp only [fetchAllFeedsDuration, allSources, List.map, List.foldr] at hd
  omega

/-- Claim C4, corrected: only the Crawl boundary is deadline-bounded —
`handleCrawl` stops waiting within the 45-second deadline — while
`fetchAllFeeds` joins on every adapter, waits at least as long as each of
them, and exceeds any fixed bound once one adapter is slow enough. -/
theorem timeoutIsolation_boundary_only :
    (∀ crawlDuration : Nat, handleCrawlWaitTime crawlDuration ≤ SUPERVISOR_DEADLINE) ∧
    (∀ (d : SourceName → Nat) (s : SourceName), d s ≤ fetchAllFeedsDuration d) ∧
    (∀ bound : Nat, bound < fetchAllFeedsDuration (fun _ => bound + 1)) := by
  refine ⟨fun t => Nat.min_le_right _ _, ?_, ?_⟩
  · intro d s
    cases s <;> (simp only [fetchAllFeedsDuration, allSources, List.map, List.foldr]; omega)
  · intro bound
    simp only [fetchAllFeedsDuration, allSources, List.map, List.foldr]
    omega

/-- The comparator of `sortKeywordsByCount` (src/main.go lines 523-540):
`sorted[i].Value > sorted[j].Value`, i.e. count descending, with no tie
break on the keyword. -/
def countGE (p q : String × Nat) : Prop := q.2 ≤ p.2

instance : DecidableRel countGE := fun p q =>
  inferInstanceAs (Decidable (q.2 ≤ p.2))

instance : IsTotal (String × Nat) countGE :=
  ⟨fun p q => Nat.le_total q.2 p.2⟩

instance : IsTrans (String × Nat) countGE :=
  ⟨fun _ _ _ hpq hqr => Nat.le_trans hqr hpq⟩

/-- Embeds `sortKeywordsByCount` (src/main.go lines 523-540).  Go's
`range` over the map delivers the entries in a randomized order, so the
iteration order is an explicit input; the slice is then sorted by count
descending only, and the keys are extracted. -/
def sortKeywordsByCount (kvs : List (String × Nat)) : List String :=
  (List.insertionSort countGE kvs).map Prod.fst

/-- Claim C9 fails as stated: the two-keyword counter map in which `"a"`
and `"b"` both have count 1 is handed to `sortKeywordsByCount` in one of
two iteration orders — Go randomizes which — and the two orders produce
different output sequences, so ties are not broken deterministically. -/
theorem sortKeywordsByCount_tie_nondeterministic :
    List.Perm [("a", 1), ("b", 1)] [("b", 1), ("a", 1)] ∧
    sortKeywordsByCount [("a", 1), ("b", 1)] ≠ sortKeywordsByCount [("b", 1), ("a", 1)] := by
  constructor
  · decide
  · decide

theorem sorted_eq_of_perm_of_distinctCounts :
    ∀ {l₁ l₂ : List (String × Nat)}, l₁.Perm l₂ →
      l₁.Sorted countGE → l₂.Sorted countGE →
      (∀ p ∈ l₁, ∀ q ∈ l₁, p ≠ q → p.2 ≠ q.2) → l₁ = l₂
  | [], l₂, hp, _, _, _ => hp.nil_eq
  | a :: t₁, l₂, hp, hs₁, hs₂, hdist => by
    match l₂, hp with
    | [], hp => exact absurd hp.symm.nil_eq (by simp)
    | b :: t₂, hp =>
      have hab : a = b := by
        by_contra hne
        have hbmem : b ∈ a :: t₁ := hp.mem_iff.mpr (List.mem_cons_self b t₂)
        have hamem : a ∈ b :: t₂ := hp.mem_iff.mp (List.mem_cons_self a t₁)
        have hb₁ : b ∈ t₁ := by
          rcases List.mem_cons.mp hbmem with h | h
          · exact absurd h.symm hne
          · exact h
        have ha₂ : a ∈ t₂ := by
          rcases List.mem_cons.mp hamem with h | h
          · exact absurd h hne
          · exact h
        have hrab : countGE a b := List.rel_of_sorted_cons hs₁ b hb₁
        have hrba : countGE b a := List.rel_of_sorted_cons hs₂ a ha₂
        exact hdist a (List.mem_cons_self a t₁) b hbmem hne (Nat.le_antisymm hrba hrab)
      subst hab
      have htp : t₁.Perm t₂ := hp.cons_inv
      have ht : t₁ = t₂ :=
        sorted_eq_of_perm_of_distinctCounts htp hs₁.of_cons hs₂.of_cons
          (fun p hpm q hqm hne =>
            hdist p (List.mem_cons_of_mem a hpm) q (List.mem_cons_of_mem a hqm) hne)
      rw [ht]

/-- Claim C9, corrected: `sortKeywordsByCount` orders keywords by count
descending, but it breaks ties neither by keyword nor by any other
deterministic rule — the output depends on the randomized map iteration
order.  Determinism holds exactly when the counts are pairwise distinct:
then every iteration order of the same counter map yields the same
sequence. -/
theorem sortKeywordsByCount_det_of_distinctCounts (kvs kvs' : List (String × Nat))
    (hperm : kvs.Perm kvs')
    (hdist : ∀ p ∈ kvs, ∀ q ∈ kvs, p ≠ q → p.2 ≠ q.2) :
    sortKeywordsByCount kvs = sortKeywordsByCount kvs' := by
  unfold sortKeywordsByCount
  refine congrArg (List.map Prod.fst) ?_
  have hsortperm : (List.insertionSort countGE kvs).Perm (List.insertionSort countGE kvs') :=
    ((List.perm_insertionSort countGE kvs).trans hperm).trans
      (List.perm_insertionSort countGE kvs').symm
  refine sorted_eq_of_perm_of_distinctCounts hsortperm
    (List.sorted_insertionSort countGE kvs) (List.sorted_insertionSort countGE kvs') ?_
  intro p hpm q hqm
  exact hdist p ((List.perm_insertionSort countGE kvs).mem_iff.mp hpm)
    q ((List.perm_insertionSort countGE kvs).mem_iff.mp hqm)

theorem sortKeywordsByCount_det_example :
    List.Perm [("go", 3), ("rust", 1)] [("rust", 1), ("go", 3)] ∧
    sortKeywordsByCount [("go", 3), ("rust", 1)]
      = sortKeywordsByCount [("rust", 1), ("go", 3)] :=
  ⟨by decide,
    sortKeywordsByCount_det_of_distinctCounts [("go", 3), ("rust", 1)]
      [("rust", 1), ("go", 3)] (by decide) (by decide)⟩

end SocialMediaAggregator
